import Mathlib

/-!
Verification development for the `PhotosDB` module (`osxphotos/photosdb.py`).

The module ingests an Apple Photos library database (two physical schema
families: the legacy Photos <= 4 layout processed by `_process_database4`
and the modern Photos >= 5 layout processed by `_process_database5`) into
in-memory cross-reference dictionaries, and answers multi-criteria queries
through `PhotosDB.photos`.

This file shallowly embeds the parts of that code the claims depend on:

* Python dictionaries keyed by strings become association lists
  (`List (κ × α)`) read by first-match lookup (`alookup`), written by
  overwrite-or-append (`assocSet`) and by in-place field update on an
  existing key (`assocReplace` / `assocUpdateIfPresent`).
* SQLite rows become Lean structures; a nullable column becomes an
  `Option`.  SQLite integers become `Int`.  `datetime` values are
  represented by their timestamp (an `Int`); only their ordering is used
  by the query engine.
* The opaque constants `_PHOTO_TYPE` / `_MOVIE_TYPE` (imported from the
  constants module, which only needs them to be two distinct sentinels)
  become the two constructors of `PhotoType`; a photo whose raw kind code
  maps to neither (stored as Python `None`) becomes `none : Option PhotoType`.
* `PhotosDB.photos` returns a list of `PhotoInfo(db, uuid, info)` wrappers,
  one per surviving uuid, in unspecified set-iteration order; the embedding
  (`photosQuery`) returns the `Finset` of surviving uuids, which carries
  exactly the order-independent information of that list.
-/

namespace OsxPhotos

/-- The two distinct media-kind sentinels `_PHOTO_TYPE` and `_MOVIE_TYPE`.
An asset's `type` field holds `some` of these or `none` (Python `None`,
the explicit "unknown kind" value). -/
inductive PhotoType where
  | image
  | movie
deriving DecidableEq

/-- First-match association-list lookup: the embedding of a Python dict
read `m[k]` (returning `none` where Python would raise `KeyError`; each
use site notes whether the source guards the access). -/
def alookup {κ α : Type} [DecidableEq κ] : List (κ × α) → κ → Option α
  | [], _ => none
  | (k0, v) :: rest, k => if k0 = k then some v else alookup rest k

/-- Python dict assignment `m[k] = v`: overwrite the value at an existing
key, otherwise append a new entry. -/
def assocSet {κ α : Type} [DecidableEq κ] (m : List (κ × α)) (k : κ) (v : α) :
    List (κ × α) :=
  if (alookup m k).isSome then m.map (fun p => if p.1 = k then (k, v) else p)
  else m ++ [(k, v)]

/-- Overwrite the value stored at key `k` wherever that key occurs, leaving
other entries alone (the embedding of assigning into `m[k]` when `k` is
known to be present). -/
def assocReplace {κ α : Type} [DecidableEq κ] (m : List (κ × α)) (k : κ) (v : α) :
    List (κ × α) :=
  m.map (fun p => if p.1 = k then (k, v) else p)

/-- The guarded-update shape `if k in m: m[k] = v` used by the late joins of
`_process_database5` (descriptions, adjustments, both availability passes):
rows whose uuid is not a key of the photos dict are dropped. -/
def assocUpdateIfPresent {κ α : Type} [DecidableEq κ] (m : List (κ × α)) (k : κ)
    (v : α) : List (κ × α) :=
  if (alookup m k).isSome then assocReplace m k v else m

/-- The projection of one `_dbphotos[uuid]` record used by `PhotosDB.photos`:
`imageDate` (its timestamp), the decoded `type`, and the burst fields set by
the main asset pass of either ingester.  The remaining record fields are
never read by the query engine. -/
structure PhotoRec where
  imageDate : Int
  type : Option PhotoType
  burst : Bool
  burst_key : Option Bool
deriving DecidableEq

/-- The projection of one `_dbalbum_details[album_uuid]` record used by the
album views and the album query path: `title` and
`cloudownerhashedpersonid` (both nullable).  The schema-specific
pass-through fields (`cloudlibrarystate`, `cloudidentifier`,
`cloudlocalstate`, owner names) are never read by these operations. -/
structure AlbumDetail where
  title : Option String
  cloudownerhashedpersonid : Option String
deriving DecidableEq

/-- The cross-reference state of a fully ingested `PhotosDB`, restricted to
the tables read by `photos`, `albums_shared` and `albums_shared_as_dict`:
`_db_version` (a string, as returned by `_get_db_version`), `_dbphotos`,
`_dbkeywords_keyword`, `_dbfaces_person`, `_dbalbums_album` (album uuid to
member photo uuids) and `_dbalbum_details`. -/
structure PhotosDB where
  version : String
  dbphotos : List (String × PhotoRec)
  dbkeywords_keyword : List (String × List String)
  dbfaces_person : List (String × List String)
  dbalbums_album : List (String × List String)
  dbalbum_details : List (String × AlbumDetail)

/-- Python truthiness of a nullable boolean field: `None` and `False` are
falsy, `True` is truthy (used by `not self._dbphotos[p]["burst_key"]`). -/
def truthyOpt : Option Bool → Bool
  | some b => b
  | none => false

/-- The per-photo filter applied to each member of the candidate
intersection in `PhotosDB.photos`: skip burst photos that are not the
selected (key) photo of their burst, then keep the photo only if its kind
passes the `images` / `movies` toggles.  A uuid that is not a key of
`_dbphotos` would raise `KeyError` in the source; the candidate sets of a
well-formed index only hold `_dbphotos` keys, and the embedding maps the
unguarded read to `false` (the photo is not returned). -/
def queryFilter (db : PhotosDB) (images movies : Bool) (p : String) : Bool :=
  match alookup db.dbphotos p with
  | none => false
  | some r =>
    if r.burst && !(truthyOpt r.burst_key) then false
    else (images && (r.type == some PhotoType.image))
      || (movies && (r.type == some PhotoType.movie))

/-- `album_titles` as built inside `PhotosDB.photos` when `albums` is
supplied: a map from album title (nullable) to the list of album uuids
bearing that title, in first-seen order. -/
def insertTitleId (m : List (Option String × List String)) (t : Option String)
    (aid : String) : List (Option String × List String) :=
  if (alookup m t).isSome then
    m.map (fun p => if p.1 = t then (p.1, p.2 ++ [aid]) else p)
  else m ++ [(t, [aid])]

/-- Builds `album_titles` from `_dbalbum_details` (each album uuid appended
under its title). -/
def albumTitlesMap (details : List (String × AlbumDetail)) :
    List (Option String × List String) :=
  details.foldl (fun m kd => insertTitleId m kd.2.title kd.1) []

/-- The candidate set built for one requested album title: the union of the
member lists of every album uuid bearing that title
(`album_set.update(self._dbalbums_album[album_id])`).  The source reads
`_dbalbums_album[album_id]` unguarded (an album with a detail record but no
members would raise `KeyError`); the embedding reads an absent key as the
empty list. -/
def albumSetOfTitle (db : PhotosDB) (t : String) : Finset String :=
  match alookup (albumTitlesMap db.dbalbum_details) (some t) with
  | some ids =>
      ids.foldl (fun s aid => s ∪ ((alookup db.dbalbums_album aid).getD []).toFinset) ∅
  | none => ∅

/-- The albums loop of `PhotosDB.photos`: one candidate set is appended per
requested album title found in `album_titles`; an unknown title is skipped
with a diagnostic. -/
def albumSets (db : PhotosDB) (albums : List String) : List (Finset String) :=
  albums.filterMap (fun a =>
    if (alookup (albumTitlesMap db.dbalbum_details) (some a)).isSome then
      some (albumSetOfTitle db a)
    else none)

/-- The uuid loop of `PhotosDB.photos`: one singleton candidate set per
requested uuid present in `_dbphotos`; an unknown uuid is skipped. -/
def uuidSets (db : PhotosDB) (uuids : List String) : List (Finset String) :=
  uuids.filterMap (fun u =>
    if (alookup db.dbphotos u).isSome then some {u} else none)

/-- The keywords loop of `PhotosDB.photos`: one candidate set per requested
keyword present in `_dbkeywords_keyword`; an unknown keyword is skipped. -/
def keywordSets (db : PhotosDB) (keywords : List String) : List (Finset String) :=
  keywords.filterMap (fun k =>
    (alookup db.dbkeywords_keyword k).map List.toFinset)

/-- The persons loop of `PhotosDB.photos`: one candidate set per requested
person present in `_dbfaces_person`; an unknown person is skipped. -/
def personSets (db : PhotosDB) (persons : List String) : List (Finset String) :=
  persons.filterMap (fun q =>
    (alookup db.dbfaces_person q).map List.toFinset)

/-- The date-range branch of `PhotosDB.photos`: when either bound is
supplied, a single candidate set holding every photo whose `imageDate`
passes the supplied bounds (each bound inclusive). -/
def dateSets (db : PhotosDB) (from_date to_date : Option Int) :
    List (Finset String) :=
  if from_date = none ∧ to_date = none then []
  else
    [((db.dbphotos.filter (fun kv =>
        (match from_date with
         | some fd => decide (fd ≤ kv.2.imageDate)
         | none => true)
        && (match to_date with
            | some t => decide (kv.2.imageDate ≤ t)
            | none => true))).map Prod.fst).toFinset]

/-- The key set of `_dbphotos` (the no-criteria candidate set). -/
def photoKeySet (db : PhotosDB) : Finset String :=
  (db.dbphotos.map Prod.fst).toFinset

/-- `photos_sets` as built by `PhotosDB.photos`: the whole photo table if no
criterion is supplied (Python truthiness: an absent or empty argument does
not count as supplied); otherwise the per-value candidate sets in source
order (albums, uuid, keywords, persons, date range). -/
def candidateSets (db : PhotosDB) (keywords uuid persons albums : List String)
    (from_date to_date : Option Int) : List (Finset String) :=
  if keywords = [] ∧ uuid = [] ∧ persons = [] ∧ albums = [] ∧ from_date = none
      ∧ to_date = none then
    [photoKeySet db]
  else
    albumSets db albums ++ uuidSets db uuid ++ keywordSets db keywords
      ++ personSets db persons ++ dateSets db from_date to_date

/-- `set.intersection(*photos_sets)` for the non-empty list `s :: ss`. -/
def interAll (s : Finset String) (ss : List (Finset String)) : Finset String :=
  ss.foldl (fun a b => a ∩ b) s

/-- The embedding of `PhotosDB.photos`: build `photos_sets`, return the
empty result when it is empty (all supplied values unknown), otherwise
filter the intersection with the burst and media-type tests.  The result
is the set of uuids of the returned `PhotoInfo` objects. -/
def photosQuery (db : PhotosDB) (keywords uuid persons albums : List String)
    (images movies : Bool) (from_date to_date : Option Int) : Finset String :=
  match candidateSets db keywords uuid persons albums from_date to_date with
  | [] => ∅
  | s :: ss =>
      (interAll s ss).filter (fun p => queryFilter db images movies p = true)

/-!  ### Main asset pass (burst grouping and kind decoding)

Both ingesters run one wide query over the asset tables and process its
rows with the same kind/burst logic (different raw code values for kind,
identical burst rule).  The embedding keeps the row fields that feed the
`PhotoRec` projection above.
-/

/-- One row of the main asset query, restricted to the columns feeding the
`PhotoRec` projection: the uuid, the raw kind code (`RKVersion.type` /
`ZGENERICASSET.ZKIND`), the burst group id (`burstUuid` /
`avalancheUUID`), the burst pick type, and the capture timestamp. -/
structure AssetRow where
  uuid : String
  typeCode : Option Int
  burstUuid : Option String
  burstPickType : Option Int
  imageDate : Int
deriving DecidableEq

/-- Legacy kind decoding (`_process_database4`): raw code 2 is an image,
8 is a movie, anything else (including null) is unknown. -/
def typeOf4 (t : Option Int) : Option PhotoType :=
  if t == some 2 then some PhotoType.image
  else if t == some 8 then some PhotoType.movie
  else none

/-- Modern kind decoding (`_process_database5`): raw code 0 is an image,
1 is a movie, anything else (including null) is unknown. -/
def typeOf5 (t : Option Int) : Option PhotoType :=
  if t == some 0 then some PhotoType.image
  else if t == some 1 then some PhotoType.movie
  else none

/-- The burst-representative rule shared by both ingesters: pick-type codes
2 and 4 mean "not the key photo"; any other value, null included, means
"key photo" (`row != 2 and row != 4`, where Python `None != 2` is true). -/
def burstKeyOfPick (p : Option Int) : Bool :=
  !(p == some 2) && !(p == some 4)

/-- The `PhotoRec` produced for one asset row: a non-null burst group id
marks the photo as a burst member and derives `burst_key` from the pick
type; a null group id leaves `burst = False`, `burst_key = None`. -/
def recOfRow (decode : Option Int → Option PhotoType) (row : AssetRow) : PhotoRec :=
  { imageDate := row.imageDate
    type := decode row.typeCode
    burst := row.burstUuid.isSome
    burst_key :=
      match row.burstUuid with
      | some _ => some (burstKeyOfPick row.burstPickType)
      | none => none }

/-- Adds a burst member to `_dbphotos_burst[group]`, creating the group set
on first contact. -/
def addToBurstGroup (groups : List (String × Finset String)) (g uuid : String) :
    List (String × Finset String) :=
  match alookup groups g with
  | some s => assocSet groups g (insert uuid s)
  | none => groups ++ [(g, {uuid})]

/-- Processes one main-pass asset row: store the photo record under its
uuid and, for burst members, record the uuid in its burst group. -/
def ingestAsset (decode : Option Int → Option PhotoType)
    (st : List (String × PhotoRec) × List (String × Finset String))
    (row : AssetRow) :
    List (String × PhotoRec) × List (String × Finset String) :=
  ( assocSet st.1 row.uuid (recOfRow decode row)
  , match row.burstUuid with
    | some g => addToBurstGroup st.2 g row.uuid
    | none => st.2 )

/-- The main asset pass of either ingester (`decode` selects the schema
family): fold the rows into `(_dbphotos, _dbphotos_burst)`. -/
def ingestAssets (decode : Option Int → Option PhotoType) (rows : List AssetRow) :
    List (String × PhotoRec) × List (String × Finset String) :=
  rows.foldl (ingestAsset decode) ([], [])

/-- True when the stored record of `u` has `burst_key` equal to `True`
(the representative / key-photo flag). -/
def isRepresentative (photos : List (String × PhotoRec)) (u : String) : Bool :=
  match alookup photos u with
  | some r => r.burst_key == some true
  | none => false

/-- The number of members of burst group `g` whose stored record carries
the representative flag. -/
def representativeCount (photos : List (String × PhotoRec)) (g : Finset String) :
    Nat :=
  (g.filter (fun u => isRepresentative photos u = true)).card

/-!  ### Modern availability passes (`_process_database5`)

Two joins run in sequence over `(localAvailability, remoteAvailability)`
rows; each touched asset's availability fields and derived `isMissing` are
assigned, so within one pass the last row for a uuid wins and the second
pass overwrites the first wherever it touches.  The embedding projects the
photo record onto the three assigned fields.
-/

/-- The three fields assigned by the availability joins (all initialized to
`None` by the main pass). -/
structure AvailInfo where
  localAvailability : Option Int
  remoteAvailability : Option Int
  isMissing : Option Int
deriving DecidableEq

/-- One row of either availability join: the asset uuid and the two
nullable availability codes. -/
structure AvailRow where
  uuid : String
  localA : Option Int
  remoteA : Option Int
deriving DecidableEq

/-- The field values assigned for one availability row:
`isMissing = 1 if row.local != 1 else 0` (Python `None != 1` is true). -/
def availOfRow (row : AvailRow) : AvailInfo :=
  { localAvailability := row.localA
    remoteAvailability := row.remoteA
    isMissing := some (if row.localA == some 1 then 0 else 1) }

/-- Processes the rows of one availability join in order: each row whose
uuid is a key of the photos dict overwrites that asset's three fields. -/
def processAvailRows (photos : List (String × AvailInfo)) (rows : List AvailRow) :
    List (String × AvailInfo) :=
  rows.foldl (fun ps row => assocUpdateIfPresent ps row.uuid (availOfRow row)) photos

/-- The last row of `rows` whose uuid is `u` (the row whose assignment
survives the pass), if any. -/
def lastRowFor (u : String) : List AvailRow → Option AvailRow
  | [] => none
  | r :: rs =>
    match lastRowFor u rs with
    | some x => some x
    | none => if r.uuid = u then some r else none

/-!  ### Record field sets of the two ingesters

Each ingester writes a fixed set of keys into every `_dbphotos[uuid]`
dict: the main-pass assignments, the late-join assignments (which only
overwrite existing keys or are backfilled to an explicit `None` for every
photo), and the final keyword/person/album attachment loop.  The two lists
below transcribe those key sets in assignment order.
-/

/-- The keys present in every `_dbphotos[uuid]` record after
`_process_database4` finishes (main pass lines 530-639, edit backfill
lines 739-744, final attachment loop lines 776-802). -/
def legacyPhotoKeys : List String :=
  [ "_uuid", "modelID", "masterUuid", "filename", "lastmodifieddate",
    "imageDate", "mainRating", "hasAdjustments", "hasKeywords",
    "imageTimeZoneOffsetSeconds", "volumeId", "imagePath",
    "extendedDescription", "name", "isMissing", "originalFilename",
    "favorite", "hidden", "latitude", "longitude", "adjustmentUuid",
    "adjustmentFormatID", "type", "UTI", "burstUUID", "burstPickType",
    "burst", "burst_key", "specialType", "masterModelID", "panorama",
    "slow_mo", "time_lapse", "hdr", "live_photo", "screenshot", "portrait",
    "selfie", "cloudAssetGUID", "cloudLocalState", "cloudLibraryState",
    "cloudStatus", "cloudAvailable", "incloud", "edit_resource_id",
    "live_model_id", "modeResourceIsOnDisk", "keywords", "hasPersons",
    "persons", "albums", "hasAlbums", "volume" ]

/-- The keys present in every `_dbphotos[uuid]` record after
`_process_database5` finishes (main pass lines 1006-1121, final
attachment loop lines 1260-1281). -/
def modernPhotoKeys : List String :=
  [ "_uuid", "modelID", "masterUuid", "masterFingerprint", "name",
    "lastmodifieddate", "imageDate", "imageTimeZoneOffsetSeconds", "hidden",
    "favorite", "originalFilename", "filename", "directory", "latitude",
    "longitude", "hasAdjustments", "cloudbatchpublishdate", "shared",
    "extendedDescription", "localAvailability", "remoteAvailability",
    "isMissing", "adjustmentUuid", "adjustmentFormatID", "type", "UTI",
    "burstUUID", "burstPickType", "burst", "burst_key", "subtype",
    "live_photo", "screenshot", "slow_mo", "time_lapse",
    "customRenderedValue", "hdr", "portrait", "panorama", "selfie",
    "cloudAssetGUID", "cloudLocalState", "incloud", "cloudLibraryState",
    "cloudStatus", "cloudAvailable", "hasKeywords", "keywords",
    "hasPersons", "persons", "albums", "hasAlbums" ]

/-- The fields the claim allows to be absent-by-schema: `volume` and
`selfie` for the legacy family, cloud-library-state/status for the modern
family. -/
def schemaAbsentFields : List String :=
  ["volume", "selfie", "cloudLibraryState", "cloudStatus"]

/-!  ### Legacy keyword attachment and ingestion exit paths

The final loop of `_process_database4` attaches keyword lists:
`if hasKeywords == 1: record["keywords"] = self._dbkeywords_uuid[uuid]`.
The right-hand lookup is unguarded; an asset whose `hasKeywords` column is
set but which has no keyword-assignment rows raises `KeyError`, which
propagates out of `_process_database4` before `_cleanup_tmp_files()` (line
805) is reached — there is no try/finally around the ingestion body and
`__del__` is a no-op.
-/

/-- The keyword attachment loop of `_process_database4`, over the
`(uuid, hasKeywords)` projection of `_dbphotos` and `_dbkeywords_uuid`:
returns the attached `keywords` lists, or `Except.error uuid` for the
`KeyError` raised on the first flagged asset with no keyword rows. -/
def attachKeywords4 (photos : List (String × Option Int))
    (kwByUuid : List (String × List String)) :
    Except String (List (String × List String)) :=
  match photos with
  | [] => Except.ok []
  | (u, hk) :: rest =>
    if hk = some 1 then
      match alookup kwByUuid u with
      | none => Except.error u
      | some ks => (attachKeywords4 rest kwByUuid).map (fun r => (u, ks) :: r)
    else (attachKeywords4 rest kwByUuid).map (fun r => (u, []) :: r)

/-- The inputs of the modelled tail of `_process_database4`: the
`(uuid, hasKeywords)` projection of the main pass and `_dbkeywords_uuid`. -/
structure RawDB4 where
  photoFlags : List (String × Option Int)
  kwByUuid : List (String × List String)

/-- The exit behaviour of `_process_database4` around its keyword
attachment step: the ingestion result (or the propagated exception) paired
with whether `_cleanup_tmp_files()` was reached.  The cleanup call sits
after the attachment loop on the straight-line path (line 805); an
exception raised by the loop propagates to the caller without reaching
it. -/
def processDatabase4 (raw : RawDB4) :
    Except String (List (String × List String)) × Bool :=
  match attachKeywords4 raw.photoFlags raw.kwByUuid with
  | Except.error e => (Except.error e, false)
  | Except.ok r => (Except.ok r, true)

/-- The extended-description merge of `_process_database5` (lines
1146-1154), over the `(uuid, extendedDescription)` projection: each
description row whose uuid is a key of the photos dict overwrites that
photo's description; an orphaned row is dropped with a diagnostic. -/
def mergeDescriptions (photos : List (String × Option String))
    (rows : List (String × Option String)) : List (String × Option String) :=
  rows.foldl (fun ps row => assocUpdateIfPresent ps row.1 row.2) photos

/-!  ### Shared-album views

`albums_shared` and `albums_shared_as_dict` guard on
`self._db_version < _PHOTOS_5_VERSION` — a Python *string* comparison
(both operands are `str`), while the ingester selection in `__init__`
compares `int(self._db_version) >= int(_PHOTOS_5_VERSION)`.  The embedding
keeps both comparisons.  Warnings are modelled as a boolean component of
the result.
-/

/-- Python string `<` on the underlying character sequences: lexicographic
by code point, a strict prefix comparing below. -/
def pyStrLtChars : List Char → List Char → Bool
  | [], [] => false
  | [], _ :: _ => true
  | _ :: _, [] => false
  | a :: xs, b :: ys =>
    if a.toNat < b.toNat then true
    else if b.toNat < a.toNat then false
    else pyStrLtChars xs ys

/-- Python `a < b` on strings. -/
def pyStrLt (a b : String) : Bool :=
  pyStrLtChars a.data b.data

/-- Python `int()` on a decimal-digit string (how `__init__` reads the
version marker for the Legacy/Modern classification). -/
def strToNat (s : String) : Nat :=
  s.data.foldl (fun acc c => acc * 10 + (c.toNat - 48)) 0

/-- Modelled from the spec: the version-marker threshold separating the
legacy and modern schema families (`_PHOTOS_5_VERSION`, defined in the
constants module, which is not part of the given source).  The spec
documents only that stores with a version below a documented threshold are
Legacy-classified; the modern-family marker value is used here. -/
def photos5Version : String := "6000"

/-- The Modern classification performed once in `__init__`:
`int(version) >= int(_PHOTOS_5_VERSION)`. -/
def isModernVersion (v : String) : Bool :=
  decide (strToNat photos5Version ≤ strToNat v)

/-- The album uuids considered by both shared-album views: the keys of
`_dbalbums_album` whose detail record has a non-null
`cloudownerhashedpersonid`.  The source reads
`_dbalbum_details[k]` unguarded (a member-having album with no detail row
would raise `KeyError`); the embedding skips such a key. -/
def sharedAlbumKeys (db : PhotosDB) : List String :=
  (db.dbalbums_album.map Prod.fst).filter (fun k =>
    match alookup db.dbalbum_details k with
    | some d => d.cloudownerhashedpersonid.isSome
    | none => false)

/-- `PhotosDB.albums_shared`: below the version threshold (string
comparison) it warns and returns empty; otherwise it returns the set of
titles of the shared album uuids.  The boolean component records whether
the warning was emitted. -/
def albumsShared (db : PhotosDB) : Finset (Option String) × Bool :=
  if pyStrLt db.version photos5Version then (∅, true)
  else
    ( ((sharedAlbumKeys db).filterMap (fun k =>
        (alookup db.dbalbum_details k).map (fun d => d.title))).toFinset
    , false )

/-- Adds `n` to the count stored under title `t`, creating the entry on
first contact (the merge-by-title accumulation of the dict views). -/
def bumpCount (m : List (Option String × Nat)) (t : Option String) (n : Nat) :
    List (Option String × Nat) :=
  if (alookup m t).isSome then
    m.map (fun p => if p.1 = t then (p.1, p.2 + n) else p)
  else m ++ [(t, n)]

/-- `PhotosDB.albums_shared_as_dict`: below the version threshold (string
comparison) it warns and returns empty; otherwise the member counts of the
shared album uuids accumulated by title.  The final descending-count sort
of the source only reorders entries and is not modelled; the boolean
component records whether the warning was emitted. -/
def albumsSharedAsDict (db : PhotosDB) : List (Option String × Nat) × Bool :=
  if pyStrLt db.version photos5Version then ([], true)
  else
    ( (sharedAlbumKeys db).foldl (fun m k =>
        bumpCount m (((alookup db.dbalbum_details k).getD ⟨none, none⟩).title)
          ((alookup db.dbalbums_album k).getD []).length) []
    , false )

/-!  ### Concrete fixtures

Small ingested states used to evaluate the definitions at concrete inputs
(the spec's own worked examples, and minimal states exhibiting behaviour).
-/

/-- The spec's criterion-composition fixture: five image assets A-E, A and
B tagged "cat", B and C tagged "dog", C and D members of the single album
titled "Trip". -/
def kwFixtureDB : PhotosDB :=
  { version := "6000"
    dbphotos :=
      [ ("A", ⟨0, some PhotoType.image, false, none⟩)
      , ("B", ⟨0, some PhotoType.image, false, none⟩)
      , ("C", ⟨0, some PhotoType.image, false, none⟩)
      , ("D", ⟨0, some PhotoType.image, false, none⟩)
      , ("E", ⟨0, some PhotoType.image, false, none⟩) ]
    dbkeywords_keyword := [("cat", ["A", "B"]), ("dog", ["B", "C"])]
    dbfaces_person := []
    dbalbums_album := [("a1", ["C", "D"])]
    dbalbum_details := [("a1", ⟨some "Trip", none⟩)] }

/-- Two image rows in one burst group, both with pick-type code 2 (neither
is the key photo). -/
def burstFixtureRows : List AssetRow :=
  [ ⟨"u1", some 0, some "b", some 2, 0⟩
  , ⟨"u2", some 0, some "b", some 2, 0⟩ ]

/-- A single burst row with pick-type code 1. -/
def burstWitnessRows : List AssetRow :=
  [ ⟨"u1", some 0, some "g", some 1, 0⟩ ]

/-- One asset with availability fields still at their initial nulls. -/
def availFixturePhotos : List (String × AvailInfo) :=
  [("X", ⟨none, none, none⟩)]

/-- First availability join: local availability 1, so `missing = 0`. -/
def availRows1 : List AvailRow := [⟨"X", some 1, some 0⟩]

/-- Second (fingerprint) availability join: local availability 0, so
`missing = 1`. -/
def availRows2 : List AvailRow := [⟨"X", some 0, some 1⟩]

/-- A one-photo modern index: a single non-burst image. -/
def singlePhotoDB : PhotosDB :=
  { version := "6000"
    dbphotos := [("A", ⟨0, some PhotoType.image, false, none⟩)]
    dbkeywords_keyword := []
    dbfaces_person := []
    dbalbums_album := []
    dbalbum_details := [] }

/-- A modern-classified index holding one shared album record
(`cloudownerhashedpersonid` non-null) that has no member photos. -/
def sharedAlbumEmptyDB : PhotosDB :=
  { version := "6000"
    dbphotos := []
    dbkeywords_keyword := []
    dbfaces_person := []
    dbalbums_album := []
    dbalbum_details := [("a1", ⟨some "Shared", some "owner"⟩)] }

/-- A modern-classified index holding one shared album with one member. -/
def sharedAlbumMemberDB : PhotosDB :=
  { version := "6000"
    dbphotos := [("P1", ⟨0, some PhotoType.image, false, none⟩)]
    dbkeywords_keyword := []
    dbfaces_person := []
    dbalbums_album := [("a1", ["P1"])]
    dbalbum_details := [("a1", ⟨some "Shared", some "owner"⟩)] }

/-!  ### Association-list lemmas -/

theorem alookup_isSome_iff {κ α : Type} [DecidableEq κ] (m : List (κ × α)) (k : κ) :
    (alookup m k).isSome ↔ k ∈ m.map Prod.fst := by
  induction m with
  | nil => simp [alookup]
  | cons p rest ih =>
    obtain ⟨k0, v⟩ := p
    by_cases h : k0 = k
    · subst h; simp [alookup]
    · simp [alookup, h, ih, Ne.symm h]

theorem alookup_eq_some_iff {κ α : Type} [DecidableEq κ] {m : List (κ × α)}
    (hnd : (m.map Prod.fst).Nodup) (k : κ) (v : α) :
    alookup m k = some v ↔ (k, v) ∈ m := by
  induction m with
  | nil => simp [alookup]
  | cons p rest ih =>
    obtain ⟨k0, v0⟩ := p
    simp only [List.map_cons, List.nodup_cons] at hnd
    by_cases h : k0 = k
    · subst h
      rw [show alookup ((k0, v0) :: rest) k0 = some v0 from by simp [alookup]]
      simp only [Option.some_inj, List.mem_cons]
      constructor
      · rintro rfl; exact Or.inl rfl
      · rintro (hp | hp)
        · exact (Prod.ext_iff.mp hp).2.symm
        · exact absurd (List.mem_map_of_mem Prod.fst hp) hnd.1
    · rw [show alookup ((k0, v0) :: rest) k = alookup rest k from by simp [alookup, h],
        ih hnd.2]
      simp only [List.mem_cons]
      constructor
      · exact Or.inr
      · rintro (hp | hp)
        · exact absurd (Prod.ext_iff.mp hp).1.symm h
        · exact hp

theorem alookup_append {κ α : Type} [DecidableEq κ] (m1 m2 : List (κ × α)) (k : κ) :
    alookup (m1 ++ m2) k =
      match alookup m1 k with
      | some v => some v
      | none => alookup m2 k := by
  induction m1 with
  | nil => rfl
  | cons p rest ih =>
    obtain ⟨k0, v0⟩ := p
    by_cases h : k0 = k <;> simp [alookup, h, ih]

theorem alookup_assocReplace_self {κ α : Type} [DecidableEq κ]
    (m : List (κ × α)) (k : κ) (v : α) :
    alookup (assocReplace m k v) k = (alookup m k).map (fun _ => v) := by
  induction m with
  | nil => rfl
  | cons p rest ih =>
    obtain ⟨k0, v0⟩ := p
    show alookup ((if k0 = k then (k, v) else (k0, v0)) :: assocReplace rest k v) k = _
    by_cases h : k0 = k
    · rw [if_pos h,
        show alookup ((k, v) :: assocReplace rest k v) k = some v from by simp [alookup],
        show alookup ((k0, v0) :: rest) k = some v0 from by simp [alookup, h]]
      rfl
    · rw [if_neg h,
        show alookup ((k0, v0) :: assocReplace rest k v) k
            = alookup (assocReplace rest k v) k from by simp [alookup, h],
        show alookup ((k0, v0) :: rest) k = alookup rest k from by simp [alookup, h]]
      exact ih

theorem alookup_assocReplace_ne {κ α : Type} [DecidableEq κ]
    (m : List (κ × α)) (k k2 : κ) (v : α) (h : k2 ≠ k) :
    alookup (assocReplace m k v) k2 = alookup m k2 := by
  induction m with
  | nil => rfl
  | cons p rest ih =>
    obtain ⟨k0, v0⟩ := p
    show alookup ((if k0 = k then (k, v) else (k0, v0)) :: assocReplace rest k v) k2 = _
    by_cases h0 : k0 = k
    · rw [if_pos h0,
        show alookup ((k, v) :: assocReplace rest k v) k2
            = alookup (assocReplace rest k v) k2 from by simp [alookup, Ne.symm h],
        show alookup ((k0, v0) :: rest) k2 = alookup rest k2 from by
          simp [alookup, h0, Ne.symm h]]
      exact ih
    · rw [if_neg h0]
      by_cases h2 : k0 = k2
      · subst h2
        simp [alookup]
      · rw [show alookup ((k0, v0) :: assocReplace rest k v) k2
              = alookup (assocReplace rest k v) k2 from by simp [alookup, h2],
          show alookup ((k0, v0) :: rest) k2 = alookup rest k2 from by simp [alookup, h2]]
        exact ih

theorem map_fst_assocReplace {κ α : Type} [DecidableEq κ]
    (m : List (κ × α)) (k : κ) (v : α) :
    (assocReplace m k v).map Prod.fst = m.map Prod.fst := by
  induction m with
  | nil => rfl
  | cons p rest ih =>
    obtain ⟨k0, v0⟩ := p
    show ((if k0 = k then (k, v) else (k0, v0)) :: assocReplace rest k v).map Prod.fst = _
    rw [List.map_cons, List.map_cons, ih]
    by_cases h : k0 = k
    · rw [if_pos h, h]
    · rw [if_neg h]

theorem alookup_assocSet_self {κ α : Type} [DecidableEq κ]
    (m : List (κ × α)) (k : κ) (v : α) :
    alookup (assocSet m k v) k = some v := by
  unfold assocSet
  by_cases h : (alookup m k).isSome
  · rw [if_pos h]
    show alookup (assocReplace m k v) k = some v
    rw [alookup_assocReplace_self]
    obtain ⟨w, hw⟩ := Option.isSome_iff_exists.mp h
    rw [hw]; rfl
  · rw [if_neg h, alookup_append]
    rw [Option.not_isSome_iff_eq_none] at h
    rw [h]
    simp [alookup]

theorem alookup_assocSet_ne {κ α : Type} [DecidableEq κ]
    (m : List (κ × α)) (k k2 : κ) (v : α) (h : k2 ≠ k) :
    alookup (assocSet m k v) k2 = alookup m k2 := by
  unfold assocSet
  by_cases hs : (alookup m k).isSome
  · rw [if_pos hs]
    exact alookup_assocReplace_ne m k k2 v h
  · rw [if_neg hs, alookup_append]
    cases hm : alookup m k2 with
    | some w => simp
    | none => simp [alookup, Ne.symm h]

theorem alookup_assocUpdateIfPresent_ne {κ α : Type} [DecidableEq κ]
    (m : List (κ × α)) (k k2 : κ) (v : α) (h : k2 ≠ k) :
    alookup (assocUpdateIfPresent m k v) k2 = alookup m k2 := by
  unfold assocUpdateIfPresent
  split
  · exact alookup_assocReplace_ne m k k2 v h
  · rfl

theorem alookup_assocUpdateIfPresent_self {κ α : Type} [DecidableEq κ]
    (m : List (κ × α)) (k : κ) (v w : α) (h : alookup m k = some w) :
    alookup (assocUpdateIfPresent m k v) k = some v := by
  unfold assocUpdateIfPresent
  rw [if_pos (by simp [h])]
  rw [alookup_assocReplace_self, h]; rfl

theorem map_fst_assocUpdateIfPresent {κ α : Type} [DecidableEq κ]
    (m : List (κ × α)) (k : κ) (v : α) :
    (assocUpdateIfPresent m k v).map Prod.fst = m.map Prod.fst := by
  unfold assocUpdateIfPresent
  split
  · exact map_fst_assocReplace m k v
  · rfl

/-!  ### List helper lemmas -/

theorem filterMap_eq_map_of_some {α β : Type} (f : α → Option β) (g : α → β)
    (l : List α) (h : ∀ a ∈ l, f a = some (g a)) : l.filterMap f = l.map g := by
  induction l with
  | nil => rfl
  | cons a rest ih =>
    rw [List.filterMap_cons, h a (List.mem_cons_self a rest), List.map_cons,
      ih (fun x hx => h x (List.mem_cons_of_mem a hx))]

theorem mem_interAll (p : String) (s : Finset String) (ss : List (Finset String)) :
    p ∈ interAll s ss ↔ p ∈ s ∧ ∀ u ∈ ss, p ∈ u := by
  induction ss generalizing s with
  | nil => simp [interAll]
  | cons u us ih =>
    show p ∈ interAll (s ∩ u) us ↔ _
    rw [ih (s ∩ u)]
    simp only [Finset.mem_inter, List.mem_cons, and_assoc]
    constructor
    · rintro ⟨hs, hu, hall⟩
      exact ⟨hs, fun w hw => by rcases hw with rfl | hw; exact hu; exact hall w hw⟩
    · rintro ⟨hs, hall⟩
      exact ⟨hs, hall u (Or.inl rfl), fun w hw => hall w (Or.inr hw)⟩

/-!  ### Fold lemmas for the ingester passes -/

theorem alookup_processAvailRows (photos : List (String × AvailInfo))
    (rows : List AvailRow) (u : String) (v : AvailInfo)
    (hv : alookup photos u = some v) :
    alookup (processAvailRows photos rows) u =
      some (match lastRowFor u rows with
            | some row => availOfRow row
            | none => v) := by
  induction rows generalizing photos v with
  | nil => simpa [processAvailRows, lastRowFor] using hv
  | cons r rs ih =>
    show alookup (processAvailRows (assocUpdateIfPresent photos r.uuid (availOfRow r)) rs) u = _
    by_cases h : r.uuid = u
    · have hstep : alookup (assocUpdateIfPresent photos r.uuid (availOfRow r)) u
          = some (availOfRow r) := by
        rw [h]; exact alookup_assocUpdateIfPresent_self photos u (availOfRow r) v hv
      rw [ih _ _ hstep]
      cases hlast : lastRowFor u rs with
      | some x => simp [lastRowFor, hlast]
      | none => simp [lastRowFor, hlast, h]
    · have hstep : alookup (assocUpdateIfPresent photos r.uuid (availOfRow r)) u
          = some v := by
        rw [alookup_assocUpdateIfPresent_ne photos r.uuid u (availOfRow r)
          (fun he => h he.symm)]
        exact hv
      rw [ih _ _ hstep]
      cases hlast : lastRowFor u rs with
      | some x => simp [lastRowFor, hlast]
      | none => simp [lastRowFor, hlast, h]

theorem mergeDescriptions_preserves_keys (photos rows : List (String × Option String)) :
    (mergeDescriptions photos rows).map Prod.fst = photos.map Prod.fst := by
  induction rows generalizing photos with
  | nil => rfl
  | cons r rs ih =>
    show (mergeDescriptions (assocUpdateIfPresent photos r.1 r.2) rs).map Prod.fst = _
    rw [ih, map_fst_assocUpdateIfPresent]

theorem alookup_ingest_foldl_not_mem (decode : Option Int → Option PhotoType)
    (st : List (String × PhotoRec) × List (String × Finset String))
    (rows : List AssetRow) (u : String) (h : u ∉ rows.map AssetRow.uuid) :
    alookup (rows.foldl (ingestAsset decode) st).1 u = alookup st.1 u := by
  induction rows generalizing st with
  | nil => rfl
  | cons a rest ih =>
    simp only [List.map_cons, List.mem_cons, not_or] at h
    rw [List.foldl_cons, ih _ h.2]
    exact alookup_assocSet_ne st.1 a.uuid u (recOfRow decode a) h.1

theorem alookup_ingest_foldl (decode : Option Int → Option PhotoType)
    (st : List (String × PhotoRec) × List (String × Finset String))
    (rows : List AssetRow) (hnd : (rows.map AssetRow.uuid).Nodup)
    (r : AssetRow) (hr : r ∈ rows) :
    alookup (rows.foldl (ingestAsset decode) st).1 r.uuid
      = some (recOfRow decode r) := by
  induction rows generalizing st with
  | nil => cases hr
  | cons a rest ih =>
    simp only [List.map_cons, List.nodup_cons] at hnd
    rw [List.foldl_cons]
    rcases List.mem_cons.mp hr with rfl | hr2
    · rw [alookup_ingest_foldl_not_mem decode _ rest r.uuid hnd.1]
      exact alookup_assocSet_self st.1 r.uuid (recOfRow decode r)
    · exact ih _ hnd.2 hr2

/-!  ### Query-engine lemmas -/

theorem queryFilter_eq_true_of_mem {db : PhotosDB} {ks us ps albs : List String}
    {im mv : Bool} {fd td : Option Int} {p : String}
    (h : p ∈ photosQuery db ks us ps albs im mv fd td) :
    queryFilter db im mv p = true := by
  unfold photosQuery at h
  split at h
  · exact absurd h (Finset.not_mem_empty p)
  · exact (Finset.mem_filter.mp h).2

theorem queryFilter_spec {db : PhotosDB} {im mv : Bool} {p : String}
    (hq : queryFilter db im mv p = true) :
    ∃ r, alookup db.dbphotos p = some r
      ∧ (r.burst && !(truthyOpt r.burst_key)) = false
      ∧ ((im && (r.type == some PhotoType.image))
          || (mv && (r.type == some PhotoType.movie))) = true := by
  unfold queryFilter at hq
  cases hl : alookup db.dbphotos p with
  | none => rw [hl] at hq; exact absurd hq (by simp)
  | some r =>
    rw [hl] at hq
    dsimp only at hq
    by_cases hcond : (r.burst && !(truthyOpt r.burst_key)) = true
    · rw [if_pos hcond] at hq; cases hq
    · rw [if_neg hcond] at hq
      exact ⟨r, rfl, Bool.not_eq_true _ ▸ hcond, hq⟩

theorem mem_photosQuery_iff (db : PhotosDB) (ks us ps albs : List String)
    (im mv : Bool) (fd td : Option Int) (p : String)
    (hne : candidateSets db ks us ps albs fd td ≠ []) :
    p ∈ photosQuery db ks us ps albs im mv fd td ↔
      ((∀ s ∈ candidateSets db ks us ps albs fd td, p ∈ s)
        ∧ queryFilter db im mv p = true) := by
  unfold photosQuery
  cases hcs : candidateSets db ks us ps albs fd td with
  | nil => exact absurd hcs hne
  | cons s ss =>
    rw [Finset.mem_filter, mem_interAll]
    constructor
    · rintro ⟨⟨hs, hss⟩, hf⟩
      refine ⟨?_, hf⟩
      intro w hw
      rcases List.mem_cons.mp hw with rfl | hw2
      · exact hs
      · exact hss w hw2
    · rintro ⟨hall, hf⟩
      exact ⟨⟨hall s (List.mem_cons_self s ss), fun w hw =>
        hall w (List.mem_cons_of_mem s hw)⟩, hf⟩

/-!  ### Claim theorems -/

/-- C2 counterexample: ingesting two rows of one burst group whose pick-type
codes are both 2 yields a two-member burst group with zero
representative-flagged members — the ingester does not enforce the
"exactly one representative per non-empty group" invariant. -/
theorem burst_unique_representative_refuted :
    (ingestAssets typeOf5 burstFixtureRows).2 = [("b", {"u1", "u2"})]
      ∧ representativeCount (ingestAssets typeOf5 burstFixtureRows).1 {"u1", "u2"} = 0 := by
  decide

/-- C2 (amended): representative status is determined solely by the member's
raw pick-type code — codes 2 and 4 mean non-representative, any other value
including null means representative — and this rule is shared by the legacy
and modern main passes (the `decode` parameter is their only difference);
but the ingesters do not enforce uniqueness, so a group may hold zero or
several representative-flagged members depending on the stored codes. -/
theorem ingest_burst_key_from_pick (decode : Option Int → Option PhotoType)
    (rows : List AssetRow) (hnd : (rows.map AssetRow.uuid).Nodup)
    (r : AssetRow) (hr : r ∈ rows) (g : String) (hb : r.burstUuid = some g) :
    alookup (ingestAssets decode rows).1 r.uuid =
      some { imageDate := r.imageDate, type := decode r.typeCode,
             burst := true, burst_key := some (burstKeyOfPick r.burstPickType) } := by
  unfold ingestAssets
  rw [alookup_ingest_foldl decode ([], []) rows hnd r hr]
  simp [recOfRow, hb]

/-- C2 witness: a single burst row with pick-type 1 ingests to a record
whose `burst_key` is the decode of that pick-type (here `True`). -/
theorem ingest_burst_key_from_pick_witness :
    (burstWitnessRows.map AssetRow.uuid).Nodup
      ∧ (⟨"u1", some 0, some "g", some 1, 0⟩ : AssetRow) ∈ burstWitnessRows
      ∧ alookup (ingestAssets typeOf5 burstWitnessRows).1 "u1"
          = some { imageDate := 0, type := some PhotoType.image,
                   burst := true, burst_key := some true } :=
  ⟨by decide, by decide,
    ingest_burst_key_from_pick typeOf5 burstWitnessRows (by decide)
      ⟨"u1", some 0, some "g", some 1, 0⟩ (by decide) "g" rfl⟩

/-- C3: for an asset present in `_dbphotos` whose uuid is touched by the
second (fingerprint-match) availability join, the state after running both
joins holds exactly the values of the asset's last row of the second join,
regardless of the first join: `localAvailability` and `remoteAvailability`
come from that row, and `isMissing` is re-derived from its
local-availability code (missing iff that code is not 1). -/
theorem availability_second_join_wins (photos : List (String × AvailInfo))
    (rows1 rows2 : List AvailRow) (u : String) (v : AvailInfo) (row : AvailRow)
    (hp : alookup photos u = some v) (h2 : lastRowFor u rows2 = some row) :
    alookup (processAvailRows (processAvailRows photos rows1) rows2) u =
      some { localAvailability := row.localA
             remoteAvailability := row.remoteA
             isMissing := some (if row.localA == some 1 then 0 else 1) } := by
  have h1 := alookup_processAvailRows photos rows1 u v hp
  have h2x := alookup_processAvailRows (processAvailRows photos rows1) rows2 u _ h1
  rw [h2] at h2x
  exact h2x

/-- C3 witness: the spec's fixture — the first join stores
`missing = 0` for X, the second join touches X with local availability 0,
and the final state holds `missing = 1` (second pass wins). -/
theorem availability_second_join_wins_witness :
    alookup availFixturePhotos "X" = some ⟨none, none, none⟩
      ∧ lastRowFor "X" availRows2 = some ⟨"X", some 0, some 1⟩
      ∧ alookup (processAvailRows availFixturePhotos availRows1) "X"
          = some ⟨some 1, some 0, some 0⟩
      ∧ alookup (processAvailRows (processAvailRows availFixturePhotos availRows1)
            availRows2) "X" = some ⟨some 0, some 1, some 1⟩ :=
  ⟨rfl, rfl, rfl,
    availability_second_join_wins availFixturePhotos availRows1 availRows2 "X"
      ⟨none, none, none⟩ ⟨"X", some 0, some 1⟩ rfl rfl⟩

/-- C4 counterexample: the `shared` field exists only in modern records and
the `edit_resource_id` field only in legacy records — neither is among the
claim's allowed absent-by-schema exceptions, so the two ingesters do not
produce the identical unified field set with explicit absent values. -/
theorem unified_field_set_refuted :
    ("shared" ∈ modernPhotoKeys ∧ "shared" ∉ legacyPhotoKeys
        ∧ "shared" ∉ schemaAbsentFields)
      ∧ ("edit_resource_id" ∈ legacyPhotoKeys ∧ "edit_resource_id" ∉ modernPhotoKeys
        ∧ "edit_resource_id" ∉ schemaAbsentFields) := by
  decide

/-- C4 (amended): the two ingesters share 44 record fields (including
`selfie`, `cloudLibraryState`, `cloudStatus` and `cloudAvailable`, which are
present with explicit `None` in the family that cannot derive them), but
nine legacy-only fields and eight modern-only fields are silently omitted
from the other family's records rather than set to an explicit absent
value; these lists are the exact asymmetry. -/
theorem legacy_modern_key_asymmetry :
    legacyPhotoKeys.filter (fun k => !(modernPhotoKeys.contains k))
        = ["mainRating", "volumeId", "imagePath", "specialType", "masterModelID",
           "edit_resource_id", "live_model_id", "modeResourceIsOnDisk", "volume"]
      ∧ modernPhotoKeys.filter (fun k => !(legacyPhotoKeys.contains k))
        = ["masterFingerprint", "directory", "cloudbatchpublishdate", "shared",
           "localAvailability", "remoteAvailability", "subtype",
           "customRenderedValue"] := by
  decide

/-- C5 counterexample: an asset whose has-keywords flag is set with no
matching keyword-assignment row makes the legacy attachment loop raise
`KeyError` (modelled `Except.error`) instead of locally recovering. -/
theorem keyword_flag_anomaly_raises :
    attachKeywords4 [("u", some 1)] [] = Except.error "u" := rfl

/-- C5 (amended): anomalies handled through uuid-membership-guarded joins
are locally recovered — the modern description merge drops orphaned rows
and never changes the key set of the photo table — but the legacy keyword
attachment step is not guarded: whenever some asset's has-keywords flag is
set with no keyword-assignment entry, the pass aborts with an unhandled
`KeyError` instead of recovering. -/
theorem anomaly_handling_split :
    (∀ photos rows : List (String × Option String),
        (mergeDescriptions photos rows).map Prod.fst = photos.map Prod.fst)
    ∧ (∀ (photos : List (String × Option Int)) (kw : List (String × List String))
        (u : String), alookup photos u = some (some 1) → alookup kw u = none →
        ∃ e, attachKeywords4 photos kw = Except.error e) := by
  refine ⟨mergeDescriptions_preserves_keys, ?_⟩
  intro photos kw u hu hk
  induction photos with
  | nil => simp [alookup] at hu
  | cons p rest ih =>
    obtain ⟨u0, h0⟩ := p
    by_cases he : u0 = u
    · subst he
      have hh : h0 = some 1 := by
        have hx : alookup ((u0, h0) :: rest) u0 = some h0 := by simp [alookup]
        rw [hx] at hu
        exact Option.some_inj.mp hu
      subst hh
      exact ⟨u0, by simp [attachKeywords4, hk]⟩
    · have hu2 : alookup rest u = some (some 1) := by
        simpa [alookup, he] using hu
      obtain ⟨e, he2⟩ := ih hu2
      by_cases hh : h0 = some 1
      · cases hlk : alookup kw u0 with
        | none => exact ⟨u0, by simp [attachKeywords4, hh, hlk]⟩
        | some ks => exact ⟨e, by simp [attachKeywords4, hh, hlk, he2, Except.map]⟩
      · exact ⟨e, by simp [attachKeywords4, hh, he2, Except.map]⟩

/-- C5 witness: the description merge preserves the key set on a concrete
orphaned row, and the keyword attachment fails on a concrete flagged asset
with no keyword entry. -/
theorem anomaly_handling_split_witness :
    (mergeDescriptions [("a", some "d")] [("zz", some "x")]).map Prod.fst
        = [("a", (some "d" : Option String))].map Prod.fst
      ∧ alookup [("u", (some 1 : Option Int))] "u" = some (some 1)
      ∧ alookup ([] : List (String × List String)) "u" = none
      ∧ ∃ e, attachKeywords4 [("u", some 1)] [] = Except.error e :=
  ⟨anomaly_handling_split.1 [("a", some "d")] [("zz", some "x")], rfl, rfl,
    anomaly_handling_split.2 [("u", some 1)] [] "u" rfl rfl⟩

/-- C6 counterexample: an ingestion run that fails in the keyword
attachment step exits with the propagated exception and the temporary-file
cleanup not attempted — the cleanup call sits on the straight-line success
path only, with no try/finally. -/
theorem cleanup_skipped_on_failure :
    processDatabase4 ⟨[("u", some 1)], []⟩ = (Except.error "u", false) := rfl

/-- C6 (amended): removal of the temporary snapshot files is attempted at
the end of the successful ingestion path only — cleanup is reached exactly
when the ingestion body completes without raising; an exception propagates
to the caller with no removal attempt.  (An individual failed removal
inside `_cleanup_tmp_files` is caught and logged, as claimed.) -/
theorem cleanup_reached_iff_success (raw : RawDB4) :
    (processDatabase4 raw).2 = true
      ↔ ∃ r, attachKeywords4 raw.photoFlags raw.kwByUuid = Except.ok r := by
  unfold processDatabase4
  cases h : attachKeywords4 raw.photoFlags raw.kwByUuid with
  | error e => simp
  | ok r => simp

/-- C7: every asset returned by any `photos` query has a `_dbphotos` record
whose burst fields pass the filter: a burst member is returned only when
its `burst_key` flag is `True`, so no call returns a non-representative
burst member. -/
theorem photos_drops_nonkey_burst (db : PhotosDB) (ks us ps albs : List String)
    (im mv : Bool) (fd td : Option Int) (p : String)
    (h : p ∈ photosQuery db ks us ps albs im mv fd td) :
    ∃ r, alookup db.dbphotos p = some r
      ∧ (r.burst = true → r.burst_key = some true) := by
  obtain ⟨r, hl, hb, _⟩ := queryFilter_spec (queryFilter_eq_true_of_mem h)
  refine ⟨r, hl, fun hburst => ?_⟩
  rw [hburst] at hb
  simp only [Bool.true_and, Bool.not_eq_false] at hb
  cases hbk : r.burst_key with
  | none => rw [hbk] at hb; simp [truthyOpt] at hb
  | some b =>
    cases b with
    | false => rw [hbk] at hb; simp [truthyOpt] at hb
    | true => rfl

/-- C7 witness: a one-photo query returns A, and A's record passes the
burst condition. -/
theorem photos_drops_nonkey_burst_witness :
    ("A" ∈ photosQuery singlePhotoDB [] [] [] [] true false none none)
      ∧ ∃ r, alookup singlePhotoDB.dbphotos "A" = some r
          ∧ (r.burst = true → r.burst_key = some true) :=
  ⟨by decide,
    photos_drops_nonkey_burst singlePhotoDB [] [] [] [] true false none none "A"
      (by decide)⟩

/-- C8: every asset returned by any `photos` query satisfies
(`images` and kind image) or (`movies` and kind movie); in particular with
the defaults `images = True, movies = False` no movie — and no asset of
unknown kind — is ever returned. -/
theorem photos_media_type_toggle (db : PhotosDB) (ks us ps albs : List String)
    (im mv : Bool) (fd td : Option Int) (p : String)
    (h : p ∈ photosQuery db ks us ps albs im mv fd td) :
    ∃ r, alookup db.dbphotos p = some r
      ∧ ((im = true ∧ r.type = some PhotoType.image)
          ∨ (mv = true ∧ r.type = some PhotoType.movie)) := by
  obtain ⟨r, hl, _, ht⟩ := queryFilter_spec (queryFilter_eq_true_of_mem h)
  refine ⟨r, hl, ?_⟩
  simpa only [Bool.or_eq_true, Bool.and_eq_true, beq_iff_eq] using ht

/-- C8 witness: the default query on a one-image index returns A with the
`images` disjunct satisfied. -/
theorem photos_media_type_toggle_witness :
    ("A" ∈ photosQuery singlePhotoDB [] [] [] [] true false none none)
      ∧ ∃ r, alookup singlePhotoDB.dbphotos "A" = some r
          ∧ ((true = true ∧ r.type = some PhotoType.image)
              ∨ (false = true ∧ r.type = some PhotoType.movie)) :=
  ⟨by decide,
    photos_media_type_toggle singlePhotoDB [] [] [] [] true false none none "A"
      (by decide)⟩

/-- C10: for every argument combination, any asset returned by `photos` has
a known kind — its stored `type` is not the explicit absent value `None`
that the ingesters store for unmapped raw codes, so unknown-kind assets are
unreachable through the query interface. -/
theorem photos_no_unknown_kind (db : PhotosDB) (ks us ps albs : List String)
    (im mv : Bool) (fd td : Option Int) (p : String)
    (h : p ∈ photosQuery db ks us ps albs im mv fd td) :
    ∃ r, alookup db.dbphotos p = some r ∧ r.type ≠ none := by
  obtain ⟨r, hl, _, ht⟩ := queryFilter_spec (queryFilter_eq_true_of_mem h)
  refine ⟨r, hl, ?_⟩
  simp only [Bool.or_eq_true, Bool.and_eq_true, beq_iff_eq] at ht
  rcases ht with ⟨_, ht⟩ | ⟨_, ht⟩ <;> simp [ht]

/-- C10 witness: the one-image query with both toggles enabled returns A
with a known kind. -/
theorem photos_no_unknown_kind_witness :
    ("A" ∈ photosQuery singlePhotoDB [] [] [] [] true true none none)
      ∧ ∃ r, alookup singlePhotoDB.dbphotos "A" = some r ∧ r.type ≠ none :=
  ⟨by decide,
    photos_no_unknown_kind singlePhotoDB [] [] [] [] true true none none "A"
      (by decide)⟩

/-- C1 counterexample: on the spec's own five-asset fixture,
`photos(keywords=["cat","dog"])` returns {B} — the assets tagged with
*both* keywords — not the claimed union {A,B,C} (A is tagged "cat" yet
excluded), and adding `albums=["Trip"]` returns the empty set, not {C}. -/
theorem union_within_category_refuted :
    photosQuery kwFixtureDB ["cat", "dog"] [] [] [] true false none none = {"B"}
      ∧ "A" ∉ photosQuery kwFixtureDB ["cat", "dog"] [] [] [] true false none none
      ∧ "A" ∈ ((alookup kwFixtureDB.dbkeywords_keyword "cat").getD []).toFinset
      ∧ photosQuery kwFixtureDB ["cat", "dog"] [] [] ["Trip"] true false none none = ∅ := by
  decide

/-- C1 (amended): each supplied value contributes its own candidate set —
per value, not per category — and the result is the intersection across
all of them (so multiple values of one category are ANDed, not unioned;
only albums sharing one title are merged into a single set).  For a query
with keywords and albums all present in the index, an asset is returned
iff it passes the burst/media filter, carries every requested keyword, and
belongs to every requested album title.  On the spec fixture,
`keywords=["cat","dog"]` yields {B} and adding `albums=["Trip"]` yields {}. -/
theorem photos_and_across_values (db : PhotosDB) (ks albs : List String) (p : String)
    (hks : ks ≠ [])
    (hk : ∀ k ∈ ks, (alookup db.dbkeywords_keyword k).isSome = true)
    (ha : ∀ a ∈ albs,
      (alookup (albumTitlesMap db.dbalbum_details) (some a)).isSome = true) :
    p ∈ photosQuery db ks [] [] albs true false none none ↔
      (queryFilter db true false p = true
        ∧ (∀ k ∈ ks, p ∈ ((alookup db.dbkeywords_keyword k).getD []).toFinset)
        ∧ (∀ a ∈ albs, p ∈ albumSetOfTitle db a)) := by
  have hcs : candidateSets db ks [] [] albs none none
      = albs.map (albumSetOfTitle db)
        ++ ks.map (fun k => ((alookup db.dbkeywords_keyword k).getD []).toFinset) := by
    unfold candidateSets
    rw [if_neg (by rintro ⟨h1, _⟩; exact hks h1)]
    have hal : albumSets db albs = albs.map (albumSetOfTitle db) :=
      filterMap_eq_map_of_some _ _ _ (fun a hax => by
        rw [if_pos (ha a hax)])
    have hkw : keywordSets db ks
        = ks.map (fun k => ((alookup db.dbkeywords_keyword k).getD []).toFinset) :=
      filterMap_eq_map_of_some _ _ _ (fun k hkx => by
        obtain ⟨l, hl⟩ := Option.isSome_iff_exists.mp (hk k hkx)
        show (alookup db.dbkeywords_keyword k).map List.toFinset = _
        rw [hl]
        rfl)
    show albumSets db albs ++ uuidSets db [] ++ keywordSets db ks
        ++ personSets db [] ++ dateSets db none none = _
    rw [hal, hkw]
    rw [show uuidSets db [] = [] from rfl, show personSets db [] = [] from rfl,
      show dateSets db none none = [] from by unfold dateSets; rw [if_pos ⟨rfl, rfl⟩]]
    simp
  have hne : candidateSets db ks [] [] albs none none ≠ [] := by
    rw [hcs]
    intro hemp
    rw [List.append_eq_nil] at hemp
    exact hks (List.map_eq_nil_iff.mp hemp.2)
  rw [mem_photosQuery_iff db ks [] [] albs true false none none p hne, hcs]
  constructor
  · rintro ⟨hall, hf⟩
    refine ⟨hf, fun k hkx => ?_, fun a hax => ?_⟩
    · exact hall _ (List.mem_append.mpr (Or.inr (List.mem_map_of_mem _ hkx)))
    · exact hall _ (List.mem_append.mpr (Or.inl (List.mem_map_of_mem _ hax)))
  · rintro ⟨hf, hkmem, hamem⟩
    refine ⟨fun s hs => ?_, hf⟩
    rcases List.mem_append.mp hs with hs2 | hs2
    · obtain ⟨a, hax, rfl⟩ := List.mem_map.mp hs2
      exact hamem a hax
    · obtain ⟨k, hkx, rfl⟩ := List.mem_map.mp hs2
      exact hkmem k hkx

/-- C1 witness: the membership characterization instantiated on the spec
fixture at asset C for `keywords=["cat","dog"], albums=["Trip"]`. -/
theorem photos_and_across_values_witness :
    (["cat", "dog"] ≠ ([] : List String))
      ∧ (∀ k ∈ ["cat", "dog"],
          (alookup kwFixtureDB.dbkeywords_keyword k).isSome = true)
      ∧ (∀ a ∈ ["Trip"],
          (alookup (albumTitlesMap kwFixtureDB.dbalbum_details) (some a)).isSome = true)
      ∧ ("C" ∈ photosQuery kwFixtureDB ["cat", "dog"] [] [] ["Trip"] true false none none ↔
          (queryFilter kwFixtureDB true false "C" = true
            ∧ (∀ k ∈ ["cat", "dog"],
                "C" ∈ ((alookup kwFixtureDB.dbkeywords_keyword k).getD []).toFinset)
            ∧ (∀ a ∈ ["Trip"], "C" ∈ albumSetOfTitle kwFixtureDB a))) :=
  ⟨by decide, by decide, by decide,
    photos_and_across_values kwFixtureDB ["cat", "dog"] ["Trip"] "C"
      (by decide) (by decide) (by decide)⟩

/-- The membership characterization of `sharedAlbumKeys`. -/
theorem mem_sharedAlbumKeys (db : PhotosDB) (k : String) :
    k ∈ sharedAlbumKeys db ↔
      k ∈ db.dbalbums_album.map Prod.fst
        ∧ ∃ d, alookup db.dbalbum_details k = some d
            ∧ d.cloudownerhashedpersonid.isSome = true := by
  unfold sharedAlbumKeys
  rw [List.mem_filter]
  cases hl : alookup db.dbalbum_details k with
  | none => simp [hl]
  | some d => simp [hl]

/-- C9 counterexample: a Modern-classified index holding one album record
with a non-null cloud-owner identifier but no member photos — both shared
views return empty without a warning, not "exactly the albums whose record
has a non-null cloud-owner identifier": the views draw candidates from the
membership table, so an empty shared album is dropped. -/
theorem shared_album_view_refuted :
    isModernVersion sharedAlbumEmptyDB.version = true
      ∧ (∃ kd ∈ sharedAlbumEmptyDB.dbalbum_details,
          kd.2.cloudownerhashedpersonid.isSome = true)
      ∧ albumsShared sharedAlbumEmptyDB = (∅, false)
      ∧ albumsSharedAsDict sharedAlbumEmptyDB = ([], false)
      ∧ (some "Shared") ∉ (albumsShared sharedAlbumEmptyDB).1 := by
  decide

/-- C9 (amended): the views guard on a lexicographic *string* comparison of
the version against the threshold (the classification in `__init__`
compares numerically); wherever the two comparisons agree — in particular
for every version string with the threshold's digit length — a
below-threshold (Legacy-classified) index gets an empty result plus the
warning from both views, and an at-or-above-threshold (Modern-classified)
index gets, without warning, exactly the titles of the albums that have at
least one member photo and whose detail record has a non-null cloud-owner
identifier. -/
theorem albums_shared_amended (db : PhotosDB)
    (hagree : pyStrLt db.version photos5Version
        = decide (strToNat db.version < strToNat photos5Version))
    (hnd : (db.dbalbum_details.map Prod.fst).Nodup) :
    (strToNat db.version < strToNat photos5Version →
        albumsShared db = (∅, true) ∧ albumsSharedAsDict db = ([], true))
    ∧ (¬ strToNat db.version < strToNat photos5Version →
        albumsShared db
          = (((db.dbalbum_details.filter (fun kd =>
                kd.2.cloudownerhashedpersonid.isSome
                  && (alookup db.dbalbums_album kd.1).isSome)).map
              (fun kd => kd.2.title)).toFinset, false)
        ∧ (albumsSharedAsDict db).2 = false) := by
  constructor
  · intro hlt
    have hg : pyStrLt db.version photos5Version = true := by
      rw [hagree]; exact decide_eq_true hlt
    exact ⟨by simp [albumsShared, hg], by simp [albumsSharedAsDict, hg]⟩
  · intro hge
    have hg : pyStrLt db.version photos5Version = false := by
      rw [hagree]; exact decide_eq_false hge
    refine ⟨?_, by simp [albumsSharedAsDict, hg]⟩
    unfold albumsShared
    rw [hg]
    simp only [Bool.false_eq_true, if_false]
    refine Prod.ext ?_ rfl
    show ((sharedAlbumKeys db).filterMap (fun k =>
        (alookup db.dbalbum_details k).map (fun d => d.title))).toFinset = _
    apply Finset.ext
    intro t
    rw [List.mem_toFinset, List.mem_toFinset, List.mem_filterMap, List.mem_map]
    constructor
    · rintro ⟨k, hkm, hmap⟩
      rw [mem_sharedAlbumKeys] at hkm
      obtain ⟨hin, d, hd, howner⟩ := hkm
      rw [hd] at hmap
      have ht : d.title = t := by simpa using hmap
      refine ⟨(k, d), ?_, ht⟩
      rw [List.mem_filter]
      refine ⟨(alookup_eq_some_iff hnd k d).mp hd, ?_⟩
      rw [Bool.and_eq_true]
      exact ⟨howner, (alookup_isSome_iff _ _).mpr hin⟩
    · rintro ⟨⟨k, d⟩, hmem, ht⟩
      rw [List.mem_filter] at hmem
      obtain ⟨hin, hpred⟩ := hmem
      rw [Bool.and_eq_true] at hpred
      refine ⟨k, ?_, ?_⟩
      · rw [mem_sharedAlbumKeys]
        exact ⟨(alookup_isSome_iff _ _).mp hpred.2, d,
          (alookup_eq_some_iff hnd k d).mpr hin, hpred.1⟩
      · rw [(alookup_eq_some_iff hnd k d).mpr hin]
        simpa using ht

/-- C9 witness: on a Modern-classified index with one member-having shared
album, the guard agrees with the numeric classification, no warning is
emitted, and the view returns exactly that album's title. -/
theorem albums_shared_amended_witness :
    (pyStrLt sharedAlbumMemberDB.version photos5Version
        = decide (strToNat sharedAlbumMemberDB.version < strToNat photos5Version))
      ∧ (sharedAlbumMemberDB.dbalbum_details.map Prod.fst).Nodup
      ∧ (¬ strToNat sharedAlbumMemberDB.version < strToNat photos5Version →
          albumsShared sharedAlbumMemberDB
            = (((sharedAlbumMemberDB.dbalbum_details.filter (fun kd =>
                  kd.2.cloudownerhashedpersonid.isSome
                    && (alookup sharedAlbumMemberDB.dbalbums_album kd.1).isSome)).map
                (fun kd => kd.2.title)).toFinset, false)
          ∧ (albumsSharedAsDict sharedAlbumMemberDB).2 = false) :=
  ⟨by decide, by decide,
    (albums_shared_amended sharedAlbumMemberDB (by decide) (by decide)).2⟩

end OsxPhotos
